import Mathlib

/-!
# Verification of `Dyadic_Model/data_mod/csv_parser.py`

A shallow embedding of the CSV post-processing utilities:
`extract_columns`, `get_file_length`, `find_sync_point` and
`create_synced_data`, together with proofs of the specified properties.

CSV files are modelled at two levels:
* `CsvFile α` — a parsed file: a header (list of column names) and data rows
  whose cells carry opaque comparable scalars of type `α` (the scalar type
  the CSV decoder infers; equality is decidable, mirroring pandas `==`).
* raw text (`List Char`) — only for `get_file_length`, which in the source
  counts raw lines of the file.

The file system is modelled as a map from paths to parsed files; writing a
file overwrites whatever was at that path.  Python exceptions are modelled
with `Except PyError`; console prints that the spec cares about are
modelled with the `Msg` type.
-/

namespace CsvParser

/-- Errors the Python runtime can raise on the modelled code paths:
`FileNotFoundError` from `open`/`read_csv`, `IndexError` from `.iloc[0]`
on an empty frame, `KeyError` from a label lookup `row[col]`, and
`ValueError` from `usecols` naming a column absent from the header. -/
inductive PyError where
  | fileNotFound
  | indexError
  | keyError
  | valueError
deriving DecidableEq, Repr

/-- Console messages of `find_sync_point` / `create_synced_data` that the
spec mentions.  `lengthMismatch` is listed because the spec claims such a
warning exists; whether the code ever emits it is settled by a theorem. -/
inductive Msg where
  | syncNotFound
  | syncPointFound (i : Int)
  | syncSuccess
  | lengthMismatch
deriving DecidableEq, Repr

/-- A parsed CSV file: the header row (column names) and the data rows. -/
structure CsvFile (α : Type) where
  header : List String
  rows : List (List α)
deriving DecidableEq, Repr

variable {α : Type}

/-- pandas label lookup `row[c]`: the cell of row `r` under the column
named `c`, `none` when the label is missing (which in Python raises
`KeyError`) or the row is shorter than the header. -/
def getCell (header : List String) (r : List α) (c : String) : Option α :=
  match header.findIdx? (fun h => h == c) with
  | some i => r.get? i
  | none => none

/-- The scan loop of `find_sync_point`: iterate over the data rows of the
first file in order, carrying the global pandas row index `i`, and return
the index of the first row whose `col` cell equals `target`;
`-1` when the scan falls off the end. -/
def scanRows [DecidableEq α] (header : List String) (col : String) (target : α) :
    Nat → List (List α) → Except PyError Int
  | _, [] => Except.ok (-1)
  | i, r :: rs =>
    match getCell header r col with
    | none => Except.error PyError.keyError
    | some v =>
      if v = target then Except.ok (Int.ofNat i)
      else scanRows header col target (i + 1) rs

/-- `find_sync_point(file_1, file_2, sync_column)`:
read the sync value from the first data row of the second file
(`pd.read_csv(file_2, usecols=[sync_column]).iloc[0][sync_column]` —
`ValueError` if the column is absent, `IndexError` if there is no data
row), then scan the first file's rows for the first equal value,
returning its zero-based index, or `-1` when no row matches. -/
def find_sync_point [DecidableEq α] (f1 f2 : CsvFile α) (col : String) :
    Except PyError Int :=
  if col ∈ f2.header then
    match f2.rows.head? with
    | none => Except.error PyError.indexError
    | some r0 =>
      match getCell f2.header r0 col with
      | none => Except.error PyError.keyError
      | some target => scanRows f1.header col target 0 f1.rows
  else Except.error PyError.valueError

/-- Number of lines Python's `for _ in open(f)` yields on text `s`:
every newline terminates a line, and a final newline-less fragment still
counts as a line. -/
def pyLineCount (s : List Char) : Nat :=
  s.count '\n' + (if s ≠ [] ∧ s.getLast? ≠ some '\n' then 1 else 0)

/-- `get_file_length(input_file)`: `sum(1 for _ in open(input_file)) - 1`,
the line count of the raw text minus one for the header. -/
def get_file_length (s : List Char) : Int :=
  (pyLineCount s : Int) - 1

/-- Join text lines with newline separators (no trailing newline). -/
def joinLines : List (List Char) → List Char
  | [] => []
  | [l] => l
  | l :: l2 :: ls => l ++ '\n' :: joinLines (l2 :: ls)

/-- Render a text file from its lines, with or without a final newline. -/
def renderCsv (ls : List (List Char)) (trailingNL : Bool) : List Char :=
  joinLines ls ++ (if trailingNL then ['\n'] else [])

/-- Python `s.replace(".csv", "-sync.csv")` on the character list:
replace every occurrence of `.csv`, scanning left to right without
overlap — not only a suffix occurrence. -/
def replaceCsvSync : List Char → List Char
  | [] => []
  | '.' :: 'c' :: 's' :: 'v' :: rest =>
    '-' :: 's' :: 'y' :: 'n' :: 'c' :: '.' :: 'c' :: 's' :: 'v' :: replaceCsvSync rest
  | c :: rest => c :: replaceCsvSync rest

/-- Whether `.csv` occurs anywhere in the character list. -/
def containsCsv : List Char → Bool
  | [] => false
  | '.' :: 'c' :: 's' :: 'v' :: _ => true
  | _ :: rest => containsCsv rest

/-- Output path of `create_synced_data`:
`file.replace('.csv', '-sync.csv')`. -/
def syncPath (p : String) : String :=
  String.mk (replaceCsvSync p.toList)

/-- The file system: a map from paths to parsed CSV files. -/
def FSt (α : Type) : Type := String → Option (CsvFile α)

/-- Writing a file: the new content replaces whatever was at the path. -/
def fsWrite (fs : FSt α) (p : String) (f : CsvFile α) : FSt α :=
  fun q => if q = p then some f else fs q

/-- `create_synced_data(file_1, file_2, sync_column)` as a file-system
transformer.  It finds the sync point (propagating exceptions), returns
with the file system untouched when the sync point is `-1`, and otherwise
writes file 1's header plus its data rows from the sync point on to
`syncPath p1` (`skiprows=range(1, sync_point + 1)` skips exactly the
first `sync_point` data rows), writes an unmodified copy of file 2 to
`syncPath p2`, and finally compares the data-row counts of the two files
now on disk, printing a success message exactly when they are equal. -/
def create_synced_data [DecidableEq α] (p1 p2 col : String) (fs : FSt α) :
    Except PyError (FSt α × List Msg) :=
  match fs p1 with
  | none => Except.error PyError.fileNotFound
  | some f1 =>
    match fs p2 with
    | none => Except.error PyError.fileNotFound
    | some f2 =>
      match find_sync_point f1 f2 col with
      | Except.error e => Except.error e
      | Except.ok sp =>
        if sp = -1 then Except.ok (fs, [Msg.syncNotFound])
        else
          let out1 : CsvFile α := ⟨f1.header, f1.rows.drop sp.toNat⟩
          let o1 := syncPath p1
          let fsA := fsWrite fs o1 out1
          let o2 := syncPath p2
          let fsB := fsWrite fsA o2 f2
          let ok : Bool :=
            match fsB o1, fsB o2 with
            | some a, some b => a.rows.length == b.rows.length
            | _, _ => false
          Except.ok (fsB,
            [Msg.syncPointFound sp] ++ (if ok then [Msg.syncSuccess] else []))

/-- The messages printed by a run of `create_synced_data`
(`none` when it raised). -/
def runMsgs [DecidableEq α] (p1 p2 col : String) (fs : FSt α) : Option (List Msg) :=
  (create_synced_data p1 p2 col fs).toOption.map Prod.snd

/-- The file at path `q` after a run of `create_synced_data`
(`none` when it raised or the path holds no file). -/
def runFile [DecidableEq α] (p1 p2 col : String) (fs : FSt α) (q : String) :
    Option (CsvFile α) :=
  (create_synced_data p1 p2 col fs).toOption.bind (fun r => r.1 q)

/-- One iteration of the extraction loop:
`[row[col] for col in columns_to_extract]`, column by column in the
requested order, failing on the first missing label. -/
def extractRow (header : List String) (cols : List String) (r : List α) :
    Except PyError (List α) :=
  match cols with
  | [] => Except.ok []
  | c :: cs =>
    match getCell header r c with
    | none => Except.error PyError.keyError
    | some v =>
      match extractRow header cs r with
      | Except.error e => Except.error e
      | Except.ok vs => Except.ok (v :: vs)

/-- The chunked row loop of `extract_columns`: rows written so far,
paired with the exception that stopped the loop, if any. -/
def extractRows (header cols : List String) :
    List (List α) → List (List α) × Option PyError
  | [] => ([], none)
  | r :: rs =>
    match extractRow header cols r with
    | Except.error e => ([], some e)
    | Except.ok er =>
      let p := extractRows header cols rs
      (er :: p.1, p.2)

/-- `extract_columns(input_file, output_file, columns_to_extract)`:
the output file is opened and its header (the requested column list) is
written first; then the input is read with `usecols=columns_to_extract`,
which raises `ValueError` before any data row is produced when a
requested name is absent from the input header; otherwise every data row
is projected onto the requested columns in the requested order and
appended.  Returns the file system after the run and the exception that
escaped, if any. -/
def extract_columns (inPath outPath : String) (cols : List String) (fs : FSt α) :
    FSt α × Option PyError :=
  match fs inPath with
  | none => (fsWrite fs outPath ⟨cols, []⟩, some PyError.fileNotFound)
  | some f =>
    if cols.all (fun c => f.header.contains c) then
      let p := extractRows f.header cols f.rows
      (fsWrite fs outPath ⟨cols, p.1⟩, p.2)
    else
      (fsWrite fs outPath ⟨cols, []⟩, some PyError.valueError)

/-- Row `j` of file `f` exists and its `col` cell equals `target`. -/
def rowMatches [DecidableEq α] (f : CsvFile α) (col : String) (target : α) (j : Nat) : Prop :=
  ∃ r, f.rows.get? j = some r ∧ getCell f.header r col = some target

/-- The sync value `find_sync_point` reads from the second file, when the
column exists and the first data row provides it. -/
def syncTarget (f2 : CsvFile α) (col : String) : Option α :=
  if col ∈ f2.header then f2.rows.head?.bind (fun r0 => getCell f2.header r0 col)
  else none

/-! ## Concrete fixture files used by witnesses and counterexamples -/

/-- A small file A with sync-column `"t"` values `1, 2`. -/
def fA : CsvFile Nat := ⟨["t"], [[1], [2]]⟩

/-- A small file B whose first data row has sync value `2` and which has
five data rows. -/
def fB : CsvFile Nat := ⟨["t"], [[2], [7], [8], [9], [10]]⟩

/-- A file system holding `fA` at `a.csv` and `fB` at `b.csv`. -/
def fsEx : FSt Nat :=
  fun q => if q = "a.csv" then some fA else if q = "b.csv" then some fB else none

/-- A file B with a header but zero data rows. -/
def fBempty : CsvFile Nat := ⟨["t"], []⟩

/-- A file system where file B has no data rows. -/
def fsEmptyB : FSt Nat :=
  fun q => if q = "a.csv" then some fA else if q = "b.csv" then some fBempty else none

/-- A file B whose sync value `99` appears nowhere in `fA`. -/
def fBnoMatch : CsvFile Nat := ⟨["t"], [[99]]⟩

/-- A file system on which the sync value is not found. -/
def fsNoMatch : FSt Nat :=
  fun q => if q = "a.csv" then some fA else if q = "b.csv" then some fBnoMatch else none

/-- A file system whose file A lives at a path with two `.csv` occurrences. -/
def fsEx2 : FSt Nat :=
  fun q => if q = "x.csv.csv" then some fA else if q = "b.csv" then some fB else none

/-- Files A and B of equal trimmed length: A sync values `10..14`,
B first value `12` with three data rows. -/
def fAeq : CsvFile Nat := ⟨["t"], [[10], [11], [12], [13], [14]]⟩

/-- See `fAeq`. -/
def fBeq : CsvFile Nat := ⟨["t"], [[12], [13], [14]]⟩

/-- A file system holding `fAeq` and `fBeq`. -/
def fsEq : FSt Nat :=
  fun q => if q = "a.csv" then some fAeq else if q = "b.csv" then some fBeq else none

/-! ## Helper lemmas -/

/-- Unfolds a run of `create_synced_data` in the branch where the sync
point was found at index `n` and the two output paths are distinct:
both writes happen, and the success message is printed exactly when the
trimmed copy of file 1 and the full copy of file 2 have equally many
data rows. -/
theorem create_found_run [DecidableEq α] (p1 p2 col : String) (fs : FSt α)
    (f1 f2 : CsvFile α) (n : Nat)
    (h1 : fs p1 = some f1) (h2 : fs p2 = some f2)
    (hfind : find_sync_point f1 f2 col = Except.ok (Int.ofNat n))
    (hne : syncPath p1 ≠ syncPath p2) :
    create_synced_data p1 p2 col fs =
      Except.ok
        (fsWrite (fsWrite fs (syncPath p1) ⟨f1.header, f1.rows.drop n⟩)
          (syncPath p2) f2,
        Msg.syncPointFound (Int.ofNat n) ::
          (if (f1.rows.drop n).length = f2.rows.length then [Msg.syncSuccess]
           else [])) := by
  have hn : (Int.ofNat n : Int) ≠ -1 := by
    rw [Int.ofNat_eq_natCast]; omega
  have hne2 : syncPath p2 ≠ syncPath p1 := fun h => hne h.symm
  simp [create_synced_data, h1, h2, hfind, if_neg hn, Int.toNat_ofNat, fsWrite,
    hne, hne2, beq_iff_eq]

/-! ## C2: clean abort when the sync value is not found -/

/-- C2: when `find_sync_point` reports the `-1` "not found" sentinel,
`create_synced_data` returns without creating or writing either output
file — the resulting file system is exactly the input file system. -/
theorem create_synced_data_not_found [DecidableEq α] (p1 p2 col : String)
    (fs : FSt α) (f1 f2 : CsvFile α)
    (h1 : fs p1 = some f1) (h2 : fs p2 = some f2)
    (hfind : find_sync_point f1 f2 col = Except.ok (-1)) :
    create_synced_data p1 p2 col fs = Except.ok (fs, [Msg.syncNotFound]) := by
  simp [create_synced_data, h1, h2, hfind]

/-- Witness for C2: a concrete pair whose sync value `99` appears nowhere
in file A; the builder leaves the file system untouched. -/
theorem create_synced_data_not_found_w :
    find_sync_point fA fBnoMatch "t" = Except.ok (-1) ∧
    create_synced_data "a.csv" "b.csv" "t" fsNoMatch =
      Except.ok (fsNoMatch, [Msg.syncNotFound]) :=
  ⟨rfl,
    create_synced_data_not_found "a.csv" "b.csv" "t" fsNoMatch fA fBnoMatch
      rfl rfl rfl⟩

/-! ## C3: the file-A output is the header plus the rows from the sync
point on -/

/-- C3: when the sync point `n` is found, the file-A output that
`create_synced_data` writes is file A's header followed by exactly file
A's data rows with indices `n` through the last, in original order with
original field values — the first `n` data rows after the header are
skipped and nothing else changes. -/
theorem create_synced_data_trims_fileA [DecidableEq α] (p1 p2 col : String)
    (fs : FSt α) (f1 f2 : CsvFile α) (n : Nat)
    (h1 : fs p1 = some f1) (h2 : fs p2 = some f2)
    (hfind : find_sync_point f1 f2 col = Except.ok (Int.ofNat n))
    (hne : syncPath p1 ≠ syncPath p2) :
    runFile p1 p2 col fs (syncPath p1) = some ⟨f1.header, f1.rows.drop n⟩ := by
  rw [runFile, create_found_run p1 p2 col fs f1 f2 n h1 h2 hfind hne]
  simp [Except.toOption, fsWrite, hne]

/-- Witness for C3: the spec's scenario, sync values `10..14` against
first value `12`, sync point `2`, A-output rows `12, 13, 14`. -/
theorem create_synced_data_trims_fileA_w :
    find_sync_point fAeq fBeq "t" = Except.ok (Int.ofNat 2) ∧
    runFile "a.csv" "b.csv" "t" fsEq "a-sync.csv" =
      some ⟨fAeq.header, fAeq.rows.drop 2⟩ :=
  ⟨rfl,
    create_synced_data_trims_fileA "a.csv" "b.csv" "t" fsEq fAeq fBeq 2
      rfl rfl rfl (by decide)⟩

/-! ## C4: the verify phase -/

/-- C4 counterexample: on `fsEx` the two outputs have 1 and 5 data rows,
yet the run prints only the sync-point message — no length-mismatch
warning is emitted, contrary to the claim; the outputs do stay on disk. -/
theorem create_synced_data_no_warning_cex :
    runMsgs "a.csv" "b.csv" "t" fsEx = some [Msg.syncPointFound 1] ∧
    Msg.lengthMismatch ∉ [Msg.syncPointFound 1] ∧
    runFile "a.csv" "b.csv" "t" fsEx "a-sync.csv" = some ⟨["t"], [[2]]⟩ ∧
    runFile "a.csv" "b.csv" "t" fsEx "b-sync.csv" = some fB :=
  ⟨by decide, by decide, by decide, by decide⟩

/-- C4 (amended): after both outputs are written, `create_synced_data`
compares their data-row counts and prints the success message exactly
when they are equal; when they are unequal it prints nothing further —
in particular it never emits a length-mismatch warning — and both output
files remain on disk either way. -/
theorem create_synced_data_verify [DecidableEq α] (p1 p2 col : String)
    (fs : FSt α) (f1 f2 : CsvFile α) (n : Nat)
    (h1 : fs p1 = some f1) (h2 : fs p2 = some f2)
    (hfind : find_sync_point f1 f2 col = Except.ok (Int.ofNat n))
    (hne : syncPath p1 ≠ syncPath p2) :
    runMsgs p1 p2 col fs =
      some (Msg.syncPointFound (Int.ofNat n) ::
        (if (f1.rows.drop n).length = f2.rows.length then [Msg.syncSuccess]
         else [])) ∧
    (∀ m, runMsgs p1 p2 col fs = some m → Msg.lengthMismatch ∉ m) ∧
    runFile p1 p2 col fs (syncPath p1) = some ⟨f1.header, f1.rows.drop n⟩ ∧
    runFile p1 p2 col fs (syncPath p2) = some f2 := by
  have hrun := create_found_run p1 p2 col fs f1 f2 n h1 h2 hfind hne
  refine ⟨?_, ?_, ?_, ?_⟩
  · rw [runMsgs, hrun]; rfl
  · intro m hm
    rw [runMsgs, hrun] at hm
    simp only [Except.toOption, Option.map_some'] at hm
    cases Option.some.inj hm
    split <;> simp
  · rw [runFile, hrun]
    simp [Except.toOption, fsWrite, hne]
  · rw [runFile, hrun]
    simp [Except.toOption, fsWrite]

/-- Witness for C4 (amended) at the spec's equal-length scenario, where
the success message is printed. -/
theorem create_synced_data_verify_w :
    find_sync_point fAeq fBeq "t" = Except.ok (Int.ofNat 2) ∧
    (runMsgs "a.csv" "b.csv" "t" fsEq =
      some (Msg.syncPointFound (Int.ofNat 2) ::
        (if (fAeq.rows.drop 2).length = fBeq.rows.length then [Msg.syncSuccess]
         else [])) ∧
    (∀ m, runMsgs "a.csv" "b.csv" "t" fsEq = some m →
      Msg.lengthMismatch ∉ m) ∧
    runFile "a.csv" "b.csv" "t" fsEq (syncPath "a.csv") =
      some ⟨fAeq.header, fAeq.rows.drop 2⟩ ∧
    runFile "a.csv" "b.csv" "t" fsEq (syncPath "b.csv") = some fBeq) :=
  ⟨rfl,
    create_synced_data_verify "a.csv" "b.csv" "t" fsEq fAeq fBeq 2
      rfl rfl rfl (by decide)⟩

/-! ## C10: empty file B raises instead of returning the sentinel -/

/-- C10: when file B has a header but zero data rows, `find_sync_point`
raises `IndexError` from `.iloc[0]` rather than returning the `-1`
sentinel, and `create_synced_data` aborts by propagating that exception
instead of taking the clean not-found path. -/
theorem find_sync_point_emptyB_raises [DecidableEq α] (p1 p2 col : String)
    (fs : FSt α) (f1 f2 : CsvFile α)
    (h1 : fs p1 = some f1) (h2 : fs p2 = some f2)
    (hcol : col ∈ f2.header) (hrows : f2.rows = []) :
    find_sync_point f1 f2 col = Except.error PyError.indexError ∧
    create_synced_data p1 p2 col fs = Except.error PyError.indexError := by
  have hfind : find_sync_point f1 f2 col = Except.error PyError.indexError := by
    simp [find_sync_point, hcol, hrows]
  exact ⟨hfind, by simp [create_synced_data, h1, h2, hfind]⟩

/-- Witness for C10: a concrete file B with a header and no data rows. -/
theorem find_sync_point_emptyB_raises_w :
    ("t" ∈ fBempty.header ∧ fBempty.rows = []) ∧
    (find_sync_point fA fBempty "t" = Except.error PyError.indexError ∧
     create_synced_data "a.csv" "b.csv" "t" fsEmptyB =
       Except.error PyError.indexError) :=
  ⟨⟨by decide, rfl⟩,
    find_sync_point_emptyB_raises "a.csv" "b.csv" "t" fsEmptyB fA fBempty
      rfl rfl (by decide) rfl⟩

/-! ## C1: first-match correctness of `find_sync_point` -/

/-- The scan loop returns the global index of the first matching row
(offset by the running index `i`), or `-1` when no row matches. -/
theorem scanRows_spec [DecidableEq α] (header : List String) (col : String)
    (target : α) (rows : List (List α)) (i : Nat)
    (hwf : ∀ r ∈ rows, getCell header r col ≠ none) :
    (∃ j, scanRows header col target i rows = Except.ok (Int.ofNat (i + j)) ∧
      (∃ r, rows.get? j = some r ∧ getCell header r col = some target) ∧
      ∀ k < j, ¬ ∃ r, rows.get? k = some r ∧ getCell header r col = some target)
    ∨ (scanRows header col target i rows = Except.ok (-1) ∧
      ∀ k, ¬ ∃ r, rows.get? k = some r ∧ getCell header r col = some target) := by
  induction rows generalizing i with
  | nil =>
    right
    refine ⟨rfl, ?_⟩
    rintro k ⟨r, hr, -⟩
    simp at hr
  | cons r rs ih =>
    obtain ⟨v, hv⟩ : ∃ v, getCell header r col = some v := by
      cases h : getCell header r col with
      | none => exact absurd h (hwf r (by simp))
      | some v => exact ⟨v, rfl⟩
    by_cases hvt : v = target
    · left
      refine ⟨0, ?_, ⟨r, rfl, by rw [hv, hvt]⟩, by omega⟩
      simp [scanRows, hv, hvt]
    · have hstep : scanRows header col target i (r :: rs) =
          scanRows header col target (i + 1) rs := by
        simp [scanRows, hv, hvt]
      have hwf2 : ∀ r2 ∈ rs, getCell header r2 col ≠ none :=
        fun r2 hr2 => hwf r2 (by simp [hr2])
      rcases ih (i + 1) hwf2 with ⟨j, hj, hmatch, hmin⟩ | ⟨hs, hnone⟩
      · left
        refine ⟨j + 1, ?_, ?_, ?_⟩
        · rw [hstep, hj, show i + 1 + j = i + (j + 1) from by omega]
        · simpa using hmatch
        · intro k hk
          match k with
          | 0 =>
            rintro ⟨r2, hr2, hcell⟩
            simp only [List.get?] at hr2
            cases Option.some.inj hr2
            rw [hv] at hcell
            exact hvt (Option.some.inj hcell)
          | k2 + 1 =>
            have := hmin k2 (by omega)
            simpa using this
      · right
        refine ⟨by rw [hstep, hs], ?_⟩
        intro k
        match k with
        | 0 =>
          rintro ⟨r2, hr2, hcell⟩
          simp only [List.get?] at hr2
          cases Option.some.inj hr2
          rw [hv] at hcell
          exact hvt (Option.some.inj hcell)
        | k2 + 1 =>
          simpa using hnone k2

/-- C1: when the sync column is readable from file B's first data row
(target value `t`) and every row of file A has a cell in the sync
column, `find_sync_point` either returns the zero-based index of the
first row of file A whose sync-column value equals `t` — no earlier row
matches — or returns the `-1` sentinel (without raising) when no row of
file A matches. -/
theorem find_sync_point_spec [DecidableEq α] (f1 f2 : CsvFile α)
    (col : String) (t : α)
    (htgt : syncTarget f2 col = some t)
    (hwf : ∀ r ∈ f1.rows, getCell f1.header r col ≠ none) :
    (∃ i : Nat, find_sync_point f1 f2 col = Except.ok (Int.ofNat i) ∧
      rowMatches f1 col t i ∧ ∀ j < i, ¬ rowMatches f1 col t j)
    ∨ (find_sync_point f1 f2 col = Except.ok (-1) ∧
      ∀ j, ¬ rowMatches f1 col t j) := by
  unfold syncTarget at htgt
  split at htgt
  case isTrue hcol =>
    obtain ⟨r0, hr0, hcell⟩ := Option.bind_eq_some.mp htgt
    have hfind : find_sync_point f1 f2 col =
        scanRows f1.header col t 0 f1.rows := by
      simp [find_sync_point, hcol, hr0, hcell]
    rw [hfind]
    have := scanRows_spec f1.header col t f1.rows 0 hwf
    simpa [rowMatches] using this
  case isFalse hcol =>
    exact absurd htgt (by simp)

/-- Witness for C1 at the concrete pair `fA`, `fB`: target `2`,
first match at index `1`. -/
theorem find_sync_point_spec_w :
    (syncTarget fB "t" = some 2 ∧
      ∀ r ∈ fA.rows, getCell fA.header r "t" ≠ none) ∧
    ((∃ i : Nat, find_sync_point fA fB "t" = Except.ok (Int.ofNat i) ∧
        rowMatches fA "t" 2 i ∧ ∀ j < i, ¬ rowMatches fA "t" 2 j)
      ∨ (find_sync_point fA fB "t" = Except.ok (-1) ∧
        ∀ j, ¬ rowMatches fA "t" 2 j)) :=
  ⟨⟨by decide, by decide⟩,
    find_sync_point_spec fA fB "t" 2 (by decide) (by decide)⟩

/-! ## C5: `get_file_length` counts data rows -/

/-- Newline count of joined lines: one newline per separator. -/
theorem count_joinLines (ls : List (List Char))
    (h : ∀ l ∈ ls, '\n' ∉ l) :
    (joinLines ls).count '\n' = ls.length - 1 := by
  induction ls with
  | nil => simp [joinLines]
  | cons l ls2 ih =>
    cases ls2 with
    | nil =>
      have hl : '\n' ∉ l := h l (by simp)
      simp [joinLines, List.count_eq_zero.mpr hl]
    | cons l2 ls3 =>
      have hl : '\n' ∉ l := h l (by simp)
      have ih2 := ih (fun x hx => h x (by simp [hx]))
      rw [joinLines, List.count_append, List.count_cons_self,
        List.count_eq_zero.mpr hl, ih2]
      simp

/-- The joined lines are nonempty and do not end in a newline when every
line is nonempty and newline-free. -/
theorem getLast_joinLines (ls : List (List Char))
    (hne : ls ≠ []) (h : ∀ l ∈ ls, l ≠ [] ∧ '\n' ∉ l) :
    joinLines ls ≠ [] ∧ (joinLines ls).getLast? ≠ some '\n' := by
  induction ls with
  | nil => exact absurd rfl hne
  | cons l ls2 ih =>
    cases ls2 with
    | nil =>
      obtain ⟨hl, hln⟩ := h l (by simp)
      refine ⟨hl, fun hlast => ?_⟩
      simp only [joinLines] at hlast
      rw [List.getLast?_eq_getLast_of_ne_nil hl] at hlast
      exact hln (Option.some.inj hlast ▸ List.getLast_mem hl)
    | cons l2 ls3 =>
      obtain ⟨hj, hlast⟩ := ih (by simp) (fun x hx => h x (by simp [hx]))
      constructor
      · simp [joinLines]
      · rw [joinLines, List.getLast?_append_cons]
        cases hjoin : joinLines (l2 :: ls3) with
        | nil => exact absurd hjoin hj
        | cons c cs =>
          rw [List.getLast?_cons_cons]
          rw [hjoin] at hlast
          exact hlast

/-- C5: for a CSV text file made of one (nonempty, newline-free) header
line and `N` (nonempty, newline-free) data-row lines, `get_file_length`
returns `N`, and the result is the same whether or not the file ends
with a trailing newline. -/
theorem get_file_length_spec (hdr : List Char) (rows : List (List Char))
    (tn : Bool) (hh : hdr ≠ []) (hhn : '\n' ∉ hdr)
    (hr : ∀ r ∈ rows, r ≠ [] ∧ '\n' ∉ r) :
    get_file_length (renderCsv (hdr :: rows) tn) = rows.length := by
  have hall : ∀ l ∈ hdr :: rows, '\n' ∉ l := by
    intro l hl
    rcases List.mem_cons.mp hl with rfl | hl2
    · exact hhn
    · exact (hr l hl2).2
  have hcount := count_joinLines (hdr :: rows) hall
  have hlast := getLast_joinLines (hdr :: rows) (by simp)
    (by
      intro l hl
      rcases List.mem_cons.mp hl with rfl | hl2
      · exact ⟨hh, hhn⟩
      · exact hr l hl2)
  have hplc : pyLineCount (renderCsv (hdr :: rows) tn) = rows.length + 1 := by
    cases tn with
    | true =>
      show pyLineCount (joinLines (hdr :: rows) ++ ['\n']) = rows.length + 1
      have hlast2 : (joinLines (hdr :: rows) ++ ['\n']).getLast? = some '\n' :=
        List.getLast?_concat _
      rw [pyLineCount, if_neg (by rw [hlast2]; simp),
        List.count_append, hcount]
      simp
    | false =>
      show pyLineCount (joinLines (hdr :: rows) ++ []) = rows.length + 1
      rw [List.append_nil, pyLineCount, if_pos ⟨hlast.1, hlast.2⟩, hcount]
      simp
  rw [get_file_length, hplc]
  push_cast
  omega

/-- Witness for C5: a header and two data rows, with and without a
trailing newline. -/
theorem get_file_length_spec_w :
    (("h".toList ≠ [] ∧ '\n' ∉ "h".toList) ∧
      ∀ r ∈ ["r1".toList, "r2".toList], r ≠ [] ∧ '\n' ∉ r) ∧
    get_file_length (renderCsv ("h".toList :: ["r1".toList, "r2".toList]) true) = 2 ∧
    get_file_length (renderCsv ("h".toList :: ["r1".toList, "r2".toList]) false) = 2 :=
  ⟨⟨⟨by decide, by decide⟩, by decide⟩,
    get_file_length_spec "h".toList ["r1".toList, "r2".toList] true
      (by decide) (by decide) (by decide),
    get_file_length_spec "h".toList ["r1".toList, "r2".toList] false
      (by decide) (by decide) (by decide)⟩

/-! ## C6 and C7: column extraction -/

/-- `findIdx?` finds an in-bounds index for any present element. -/
theorem findIdx_of_mem (header : List String) (c : String)
    (hc : c ∈ header) :
    ∀ i, ∃ j, header.findIdx? (fun h => h == c) i = some j ∧
      j < i + header.length := by
  induction header with
  | nil => cases hc
  | cons h hs ih =>
    intro i
    rw [List.findIdx?_cons]
    by_cases hh : h == c
    · exact ⟨i, by rw [if_pos hh], by simp⟩
    · have hc2 : c ∈ hs := by
        rcases List.mem_cons.mp hc with rfl | h2
        · exact absurd (by simp) hh
        · exact h2
      obtain ⟨j, hj, hjb⟩ := ih hc2 (i + 1)
      refine ⟨j, ?_, ?_⟩
      · rw [if_neg hh]
        exact hj
      · simp only [List.length_cons]
        omega

/-- A lookup of a present column in a sufficiently long row succeeds. -/
theorem getCell_isSome (header : List String) (r : List α) (c : String)
    (hc : c ∈ header) (hlen : header.length ≤ r.length) :
    getCell header r c ≠ none := by
  obtain ⟨j, hj, hjb⟩ := findIdx_of_mem header c hc 0
  rw [getCell, hj]
  simp only [ne_eq, List.get?_eq_none]
  omega

/-- The row projection `[row[col] for col in columns_to_extract]` keeps
the requested order and length. -/
theorem extractRow_spec (header cols : List String) (r : List α)
    (h : ∀ c ∈ cols, getCell header r c ≠ none) :
    ∃ er, extractRow header cols r = Except.ok er ∧
      er.length = cols.length ∧
      ∀ k c, cols.get? k = some c → er.get? k = getCell header r c := by
  induction cols with
  | nil =>
    refine ⟨[], rfl, rfl, ?_⟩
    intro k c hk
    simp at hk
  | cons c cs ih =>
    obtain ⟨v, hv⟩ : ∃ v, getCell header r c = some v := by
      cases hcell : getCell header r c with
      | none => exact absurd hcell (h c (by simp))
      | some v => exact ⟨v, rfl⟩
    obtain ⟨er, her, hlen, hget⟩ := ih (fun c2 hc2 => h c2 (by simp [hc2]))
    refine ⟨v :: er, ?_, by simp [hlen], ?_⟩
    · rw [extractRow, hv, her]
    · intro k c2 hk
      match k with
      | 0 =>
        simp only [List.get?] at hk ⊢
        cases Option.some.inj hk
        simp [hv]
      | k2 + 1 =>
        simp only [List.get?] at hk ⊢
        exact hget k2 c2 hk

/-- The chunked extraction loop processes every row, in order, and
terminates without error when every lookup succeeds. -/
theorem extractRows_spec (header cols : List String) (rows : List (List α))
    (h : ∀ r ∈ rows, ∀ c ∈ cols, getCell header r c ≠ none) :
    ∃ outRows, extractRows header cols rows = (outRows, none) ∧
      outRows.length = rows.length ∧
      ∀ i r, rows.get? i = some r →
        ∃ er, outRows.get? i = some er ∧
          extractRow header cols r = Except.ok er := by
  induction rows with
  | nil =>
    refine ⟨[], rfl, rfl, ?_⟩
    intro i r hi
    simp at hi
  | cons r rs ih =>
    obtain ⟨er, her, -, -⟩ := extractRow_spec header cols r (h r (by simp))
    obtain ⟨outRows, hout, hlen, hpt⟩ := ih (fun r2 hr2 => h r2 (by simp [hr2]))
    refine ⟨er :: outRows, by simp [extractRows, her, hout], by simp [hlen], ?_⟩
    intro i r2 hi
    match i with
    | 0 =>
      simp only [List.get?] at hi ⊢
      cases Option.some.inj hi
      exact ⟨er, rfl, her⟩
    | i2 + 1 =>
      simp only [List.get?] at hi ⊢
      exact hpt i2 r2 hi

/-- C6: for an input file whose header contains every requested column
(and whose rows are at least header-wide), `extract_columns` finishes
without error and writes an output whose header is the requested column
list and whose data rows are, in original order, one row per input data
row with exactly `cols.length` fields, each field equal to the source
row's value at the requested column, in the requested column order. -/
theorem extract_columns_spec (inPath outPath : String) (cols : List String)
    (fs : FSt α) (f : CsvFile α)
    (hin : fs inPath = some f)
    (hcols : ∀ c ∈ cols, c ∈ f.header)
    (hwf : ∀ r ∈ f.rows, f.header.length ≤ r.length) :
    (extract_columns inPath outPath cols fs).2 = none ∧
    ∃ out, (extract_columns inPath outPath cols fs).1 outPath = some out ∧
      out.header = cols ∧
      out.rows.length = f.rows.length ∧
      ∀ i r, f.rows.get? i = some r →
        ∃ er, out.rows.get? i = some er ∧ er.length = cols.length ∧
          ∀ k c, cols.get? k = some c → er.get? k = getCell f.header r c := by
  have hall : cols.all (fun c => f.header.contains c) = true := by
    rw [List.all_eq_true]
    intro c hc
    simpa using hcols c hc
  have hwfall : ∀ r ∈ f.rows, ∀ c ∈ cols, getCell f.header r c ≠ none :=
    fun r hr c hc => getCell_isSome f.header r c (hcols c hc) (hwf r hr)
  obtain ⟨outRows, hout, hlen, hpt⟩ := extractRows_spec f.header cols f.rows hwfall
  have hbody : extract_columns inPath outPath cols fs =
      (fsWrite fs outPath ⟨cols, outRows⟩, none) := by
    simp only [extract_columns, hin]
    rw [if_pos hall, hout]
  constructor
  · rw [hbody]
  · refine ⟨⟨cols, outRows⟩, ?_, rfl, hlen, ?_⟩
    · rw [hbody]
      simp [fsWrite]
    · intro i r hi
      obtain ⟨er, hoi, her⟩ := hpt i r hi
      obtain ⟨er2, her2, hlen2, hget⟩ :=
        extractRow_spec f.header cols r
          (fun c hc => hwfall r (List.get?_mem hi) c hc)
      rw [her] at her2
      cases Except.ok.inj her2
      exact ⟨er, hoi, hlen2, hget⟩

/-- Witness for C6 at the concrete system `fsEx`, extracting column
`"t"`. -/
theorem extract_columns_spec_w :
    ((∀ c ∈ ["t"], c ∈ fA.header) ∧
      ∀ r ∈ fA.rows, fA.header.length ≤ r.length) ∧
    ((extract_columns "a.csv" "o.csv" ["t"] fsEx).2 = none ∧
    ∃ out, (extract_columns "a.csv" "o.csv" ["t"] fsEx).1 "o.csv" = some out ∧
      out.header = ["t"] ∧
      out.rows.length = fA.rows.length ∧
      ∀ i r, fA.rows.get? i = some r →
        ∃ er, out.rows.get? i = some er ∧ er.length = (["t"] : List String).length ∧
          ∀ k c, (["t"] : List String).get? k = some c →
            er.get? k = getCell fA.header r c) :=
  ⟨⟨by decide, by decide⟩,
    extract_columns_spec "a.csv" "o.csv" ["t"] fsEx fA rfl
      (by decide) (by decide)⟩

/-- C7: when some requested column is absent from the input header,
`extract_columns` stops with a fatal `ValueError` before writing any
data row: the output file holds only the requested header and no rows. -/
theorem extract_columns_missing_col (inPath outPath : String)
    (cols : List String) (fs : FSt α) (f : CsvFile α) (c : String)
    (hin : fs inPath = some f) (hc : c ∈ cols) (hmiss : c ∉ f.header) :
    extract_columns inPath outPath cols fs =
      (fsWrite fs outPath ⟨cols, []⟩, some PyError.valueError) := by
  have hnall : ¬ (∀ x ∈ cols, x ∈ f.header) :=
    fun hforall => hmiss (hforall c hc)
  simp [extract_columns, hin, hnall]

/-- Witness for C7: requesting the absent column `"u"` from `fA`. -/
theorem extract_columns_missing_col_w :
    ("u" ∈ ["u"] ∧ "u" ∉ fA.header) ∧
    extract_columns "a.csv" "o.csv" ["u"] fsEx =
      (fsWrite fsEx "o.csv" ⟨["u"], []⟩, some PyError.valueError) :=
  ⟨⟨by decide, by decide⟩,
    extract_columns_missing_col "a.csv" "o.csv" ["u"] fsEx fA "u"
      rfl (by decide) (by decide)⟩

/-! ## C8: output path naming -/

/-- A list whose first four characters are `.csv` decomposes off that
pattern. -/
theorem take4_eq_csv (s : List Char)
    (h : s.take 4 = ['.', 'c', 's', 'v']) :
    s = '.' :: 'c' :: 's' :: 'v' :: s.drop 4 := by
  conv_lhs => rw [← List.take_append_drop 4 s]
  rw [h]
  rfl

/-- `.csv` cannot span the boundary between a path stem and an appended
`.csv`: if `t ++ ".csv"` starts with `.csv` then `t` is empty or starts
with `.csv` itself. -/
theorem boundary_take4 (t : List Char)
    (h : (t ++ ['.', 'c', 's', 'v']).take 4 = ['.', 'c', 's', 'v']) :
    t = [] ∨ t.take 4 = ['.', 'c', 's', 'v'] := by
  match t, h with
  | [], _ => exact Or.inl rfl
  | [a], h =>
    have h2 : [a, '.', 'c', 's'] = ['.', 'c', 's', 'v'] := h
    injection h2 with h3 h4
    injection h4 with h5 _
    exact absurd h5 (by decide)
  | [a, b], h =>
    have h2 : [a, b, '.', 'c'] = ['.', 'c', 's', 'v'] := h
    injection h2 with h3 h4
    injection h4 with h5 h6
    injection h6 with h7 _
    exact absurd h7 (by decide)
  | [a, b, c], h =>
    have h2 : [a, b, c, '.'] = ['.', 'c', 's', 'v'] := h
    injection h2 with h3 h4
    injection h4 with h5 h6
    injection h6 with h7 h8
    injection h8 with h9 _
    exact absurd h9 (by decide)
  | a :: b :: c :: d :: r, h =>
    exact Or.inr h

/-- Step equation of the replacer on a non-matching head. -/
theorem replaceCsvSync_cons (c : Char) (r : List Char)
    (h : (c :: r).take 4 ≠ ['.', 'c', 's', 'v']) :
    replaceCsvSync (c :: r) = c :: replaceCsvSync r := by
  rw [replaceCsvSync.eq_def]
  split
  · simp_all
  · rename_i rest heq
    rw [heq] at h
    exact absurd rfl h
  · rename_i c2 rest heq
    injection heq with hc hr
    rw [hc, hr]

/-- Step equation of the occurrence test on a non-matching head. -/
theorem containsCsv_cons (c : Char) (r : List Char)
    (h : (c :: r).take 4 ≠ ['.', 'c', 's', 'v']) :
    containsCsv (c :: r) = containsCsv r := by
  rw [containsCsv.eq_def]
  split
  · simp_all
  · rename_i rest heq
    rw [heq] at h
    exact absurd rfl h
  · rename_i c2 rest heq
    injection heq with hc hr
    rw [hr]

/-- When `.csv` does not occur in the stem `t`, replacing in
`t ++ ".csv"` rewrites exactly the suffix. -/
theorem replaceCsvSync_suffix (t : List Char) (h : containsCsv t = false) :
    replaceCsvSync (t ++ ['.', 'c', 's', 'v']) =
      t ++ ['-', 's', 'y', 'n', 'c', '.', 'c', 's', 'v'] := by
  induction t with
  | nil => rfl
  | cons c r ih =>
    have hstep : (c :: (r ++ ['.', 'c', 's', 'v'])).take 4 ≠
        ['.', 'c', 's', 'v'] := by
      intro heq
      rcases boundary_take4 (c :: r)
          (by rw [List.cons_append]; exact heq) with h0 | h4
      · exact absurd h0 (List.cons_ne_nil c r)
      · have hdec := take4_eq_csv (c :: r) h4
        rw [hdec] at h
        exact absurd h (by rw [show containsCsv
          ('.' :: 'c' :: 's' :: 'v' :: (c :: r).drop 4) = true from rfl]; decide)
    have hr : containsCsv r = false := by
      by_cases h4 : (c :: r).take 4 = ['.', 'c', 's', 'v']
      · have hdec := take4_eq_csv (c :: r) h4
        rw [hdec] at h
        exact absurd h (by rw [show containsCsv
          ('.' :: 'c' :: 's' :: 'v' :: (c :: r).drop 4) = true from rfl]; decide)
      · rw [containsCsv_cons c r h4] at h
        exact h
    calc replaceCsvSync ((c :: r) ++ ['.', 'c', 's', 'v'])
        = replaceCsvSync (c :: (r ++ ['.', 'c', 's', 'v'])) := by
          rw [List.cons_append]
      _ = c :: replaceCsvSync (r ++ ['.', 'c', 's', 'v']) :=
          replaceCsvSync_cons _ _ hstep
      _ = c :: (r ++ ['-', 's', 'y', 'n', 'c', '.', 'c', 's', 'v']) := by
          rw [ih hr]
      _ = (c :: r) ++ ['-', 's', 'y', 'n', 'c', '.', 'c', 's', 'v'] := by
          rw [List.cons_append]

/-- `syncPath` on a path whose stem is `.csv`-free rewrites exactly the
`.csv` suffix into `-sync.csv`. -/
theorem syncPath_suffix (t : List Char) (h : containsCsv t = false) :
    syncPath (String.mk (t ++ ['.', 'c', 's', 'v'])) =
      String.mk (t ++ ['-', 's', 'y', 'n', 'c', '.', 'c', 's', 'v']) := by
  rw [syncPath]
  exact congrArg String.mk (replaceCsvSync_suffix t h)

/-- C8 counterexample: on the input path `x.csv.csv` the code writes the
file-A output to `x-sync.csv-sync.csv` — it replaces **every** occurrence
of `.csv` — and nothing appears at `x.csv-sync.csv`, the path the claim
(replace the suffix only) predicts. -/
theorem create_synced_data_outPath_cex :
    runFile "x.csv.csv" "b.csv" "t" fsEx2 "x-sync.csv-sync.csv" =
      some ⟨["t"], [[2]]⟩ ∧
    runFile "x.csv.csv" "b.csv" "t" fsEx2 "x.csv-sync.csv" = none ∧
    syncPath "x.csv.csv" = "x-sync.csv-sync.csv" ∧
    syncPath "x.csv.csv" ≠ "x.csv-sync.csv" :=
  ⟨by decide, by decide, by decide, by decide⟩

/-- C8 (amended): the output path is the input path with every
occurrence of `.csv` replaced by `-sync.csv`; in particular, when `.csv`
occurs in an input path only as its final suffix, the output path is the
input path with that suffix replaced by `-sync.csv`. -/
theorem create_synced_data_outPaths [DecidableEq α] (t1 t2 : List Char)
    (p1 p2 col : String) (fs : FSt α) (f1 f2 : CsvFile α) (n : Nat)
    (hp1 : p1 = String.mk (t1 ++ ['.', 'c', 's', 'v']))
    (hp2 : p2 = String.mk (t2 ++ ['.', 'c', 's', 'v']))
    (h1c : containsCsv t1 = false) (h2c : containsCsv t2 = false)
    (h1 : fs p1 = some f1) (h2 : fs p2 = some f2)
    (hfind : find_sync_point f1 f2 col = Except.ok (Int.ofNat n))
    (hne : t1 ≠ t2) :
    syncPath p1 = String.mk (t1 ++ ['-', 's', 'y', 'n', 'c', '.', 'c', 's', 'v']) ∧
    syncPath p2 = String.mk (t2 ++ ['-', 's', 'y', 'n', 'c', '.', 'c', 's', 'v']) ∧
    runFile p1 p2 col fs
      (String.mk (t1 ++ ['-', 's', 'y', 'n', 'c', '.', 'c', 's', 'v'])) =
      some ⟨f1.header, f1.rows.drop n⟩ ∧
    runFile p1 p2 col fs
      (String.mk (t2 ++ ['-', 's', 'y', 'n', 'c', '.', 'c', 's', 'v'])) =
      some f2 := by
  have hs1 : syncPath p1 =
      String.mk (t1 ++ ['-', 's', 'y', 'n', 'c', '.', 'c', 's', 'v']) := by
    rw [hp1]
    exact syncPath_suffix t1 h1c
  have hs2 : syncPath p2 =
      String.mk (t2 ++ ['-', 's', 'y', 'n', 'c', '.', 'c', 's', 'v']) := by
    rw [hp2]
    exact syncPath_suffix t2 h2c
  have hnep : syncPath p1 ≠ syncPath p2 := by
    rw [hs1, hs2]
    intro heq
    apply hne
    have hlist := congrArg String.toList heq
    exact List.append_cancel_right hlist
  have hfa := create_found_run p1 p2 col fs f1 f2 n h1 h2 hfind hnep
  refine ⟨hs1, hs2, ?_, ?_⟩
  · rw [← hs1, runFile, hfa]
    simp [Except.toOption, fsWrite, hnep]
  · rw [← hs2, runFile, hfa]
    simp [Except.toOption, fsWrite]

/-- Witness for C8 (amended) on the plain paths `a.csv`, `b.csv`. -/
theorem create_synced_data_outPaths_w :
    ("a.csv" = String.mk ("a".toList ++ ['.', 'c', 's', 'v']) ∧
      containsCsv "a".toList = false ∧
      find_sync_point fA fB "t" = Except.ok (Int.ofNat 1)) ∧
    (syncPath "a.csv" =
      String.mk ("a".toList ++ ['-', 's', 'y', 'n', 'c', '.', 'c', 's', 'v']) ∧
    syncPath "b.csv" =
      String.mk ("b".toList ++ ['-', 's', 'y', 'n', 'c', '.', 'c', 's', 'v']) ∧
    runFile "a.csv" "b.csv" "t" fsEx
      (String.mk ("a".toList ++ ['-', 's', 'y', 'n', 'c', '.', 'c', 's', 'v'])) =
      some ⟨fA.header, fA.rows.drop 1⟩ ∧
    runFile "a.csv" "b.csv" "t" fsEx
      (String.mk ("b".toList ++ ['-', 's', 'y', 'n', 'c', '.', 'c', 's', 'v'])) =
      some fB) :=
  ⟨⟨by decide, by decide, rfl⟩,
    create_synced_data_outPaths "a".toList "b".toList "a.csv" "b.csv" "t"
      fsEx fA fB 1 (by decide) (by decide) (by decide) (by decide)
      rfl rfl rfl (by decide)⟩

/-! ## C9: idempotence -/

/-- Found-branch run of `create_synced_data` for an arbitrary non-`-1`
sync point, without assuming the two output paths are distinct. -/
theorem create_found_run_gen [DecidableEq α] (p1 p2 col : String) (fs : FSt α)
    (f1 f2 : CsvFile α) (sp : Int)
    (h1 : fs p1 = some f1) (h2 : fs p2 = some f2)
    (hfind : find_sync_point f1 f2 col = Except.ok sp) (hsp : ¬ sp = -1) :
    create_synced_data p1 p2 col fs =
      Except.ok
        (fsWrite (fsWrite fs (syncPath p1) ⟨f1.header, f1.rows.drop sp.toNat⟩)
          (syncPath p2) f2,
        Msg.syncPointFound sp ::
          (if ((if syncPath p1 = syncPath p2 then f2
                else (⟨f1.header, f1.rows.drop sp.toNat⟩ : CsvFile α)).rows.length
              = f2.rows.length) then [Msg.syncSuccess] else [])) := by
  by_cases ho : syncPath p1 = syncPath p2 <;>
    simp [create_synced_data, h1, h2, hfind, hsp, fsWrite, ho, beq_iff_eq]

/-- C9: `create_synced_data` is idempotent and input-preserving: when the
output paths do not collide with the input paths, a successful run leaves
the input files untouched, and running again on the resulting file system
reproduces the very same file system (overwriting the outputs with
byte-identical content) and the same messages. -/
theorem create_synced_data_idempotent [DecidableEq α] (p1 p2 col : String)
    (fs fs1 : FSt α) (m : List Msg)
    (h11 : syncPath p1 ≠ p1) (h12 : syncPath p1 ≠ p2)
    (h21 : syncPath p2 ≠ p1) (h22 : syncPath p2 ≠ p2)
    (hrun : create_synced_data p1 p2 col fs = Except.ok (fs1, m)) :
    create_synced_data p1 p2 col fs1 = Except.ok (fs1, m) ∧
    fs1 p1 = fs p1 ∧ fs1 p2 = fs p2 := by
  cases hp1 : fs p1 with
  | none =>
    simp only [create_synced_data, hp1] at hrun
    simp at hrun
  | some f1 =>
    cases hp2 : fs p2 with
    | none =>
      simp only [create_synced_data, hp1, hp2] at hrun
      simp at hrun
    | some f2 =>
      cases hfind : find_sync_point f1 f2 col with
      | error e =>
        simp only [create_synced_data, hp1, hp2, hfind] at hrun
        simp at hrun
      | ok sp =>
        by_cases hsp : sp = -1
        · simp only [create_synced_data, hp1, hp2, hfind, if_pos hsp] at hrun
          injection hrun with hpair
          injection hpair with hfs hm
          subst hfs
          subst hm
          refine ⟨?_, hp1, hp2⟩
          simp only [create_synced_data, hp1, hp2, hfind, if_pos hsp]
        · rw [create_found_run_gen p1 p2 col fs f1 f2 sp hp1 hp2 hfind hsp]
            at hrun
          injection hrun with hpair
          injection hpair with hfs hm
          subst hfs
          subst hm
          have hA1 : p1 ≠ syncPath p1 := Ne.symm h11
          have hA2 : p1 ≠ syncPath p2 := Ne.symm h21
          have hB1 : p2 ≠ syncPath p1 := Ne.symm h12
          have hB2 : p2 ≠ syncPath p2 := Ne.symm h22
          have h1b : (fsWrite (fsWrite fs (syncPath p1)
              ⟨f1.header, f1.rows.drop sp.toNat⟩) (syncPath p2) f2) p1 =
              some f1 := by
            simp [fsWrite, hA1, hA2, hp1]
          have h2b : (fsWrite (fsWrite fs (syncPath p1)
              ⟨f1.header, f1.rows.drop sp.toNat⟩) (syncPath p2) f2) p2 =
              some f2 := by
            simp [fsWrite, hB1, hB2, hp2]
          refine ⟨?_, h1b, h2b⟩
          rw [create_found_run_gen p1 p2 col _ f1 f2 sp h1b h2b hfind hsp]
          have hww : fsWrite (fsWrite
              (fsWrite (fsWrite fs (syncPath p1)
                ⟨f1.header, f1.rows.drop sp.toNat⟩) (syncPath p2) f2)
              (syncPath p1) ⟨f1.header, f1.rows.drop sp.toNat⟩)
              (syncPath p2) f2 =
              fsWrite (fsWrite fs (syncPath p1)
                ⟨f1.header, f1.rows.drop sp.toNat⟩) (syncPath p2) f2 := by
            funext q
            by_cases hq2 : q = syncPath p2
            · simp [fsWrite, hq2]
            · by_cases hq1 : q = syncPath p1
              · have ho : ¬ (syncPath p1 = syncPath p2) := hq1 ▸ hq2
                simp [fsWrite, hq1, ho]
              · simp [fsWrite, hq1, hq2]
          rw [hww]

/-- The file system after the first witness run for C9. -/
def fs1c : FSt Nat :=
  fsWrite (fsWrite fsEx (syncPath "a.csv") ⟨["t"], [[2]]⟩) (syncPath "b.csv") fB

/-- Witness for C9 on `fsEx`: the second run reproduces the first run's
file system and messages, and the inputs are untouched. -/
theorem create_synced_data_idempotent_w :
    (syncPath "a.csv" ≠ "a.csv" ∧ syncPath "a.csv" ≠ "b.csv" ∧
      syncPath "b.csv" ≠ "a.csv" ∧ syncPath "b.csv" ≠ "b.csv" ∧
      create_synced_data "a.csv" "b.csv" "t" fsEx =
        Except.ok (fs1c, [Msg.syncPointFound 1])) ∧
    (create_synced_data "a.csv" "b.csv" "t" fs1c =
        Except.ok (fs1c, [Msg.syncPointFound 1]) ∧
      fs1c "a.csv" = fsEx "a.csv" ∧ fs1c "b.csv" = fsEx "b.csv") :=
  ⟨⟨by decide, by decide, by decide, by decide, rfl⟩,
    create_synced_data_idempotent "a.csv" "b.csv" "t" fsEx fs1c
      [Msg.syncPointFound 1] (by decide) (by decide) (by decide) (by decide)
      rfl⟩

end CsvParser

